import Mathlib

/-!
Shallow embedding of the Teleport agent auto-update controller
(lib/autoupdate/agent/updater.go) and proofs about its Enable and
Disable operations.

The collaborators of the Updater (config store, remote discovery,
installer, process supervisor) are modelled by an environment record
that fixes the outcome of each collaborator call for one invocation.
Enable and Disable are pure functions from the persisted file state,
the override record and that environment to a result, the new file
state and the trace of collaborator calls, transcribed line by line
from the Go source.
-/

set_option autoImplicit false

namespace AgentUpdate

/-- Tag constant for the kind field of update.yaml (updater.go line 58). -/
def updateConfigKind : String := "update_config"

/-- Tag constant for the version field of update.yaml (updater.go line 57). -/
def updateConfigVersion : String := "v1"

/-- Default CDN download template (updater.go line 45). -/
def cdnURITemplate : String :=
  "https://cdn.teleport.dev/teleport\x7b\x7bif .Enterprise\x7d\x7d-ent\x7b\x7bend\x7d\x7d-v\x7b\x7b.Version\x7d\x7d-\x7b\x7b.OS\x7d\x7d-\x7b\x7b.Arch\x7d\x7d\x7b\x7bif .FIPS\x7d\x7d-fips\x7b\x7bend\x7d\x7d-bin.tar.gz"

/-- UpdateSpec mirrors the spec field of update.yaml (updater.go lines 74-83).
Field defaults are the Go zero values. -/
structure UpdateSpec where
  Proxy : String := ""
  Group : String := ""
  URLTemplate : String := ""
  Enabled : Bool := false
deriving DecidableEq, Repr

/-- UpdateStatus mirrors the status field of update.yaml (updater.go lines 86-91). -/
structure UpdateStatus where
  ActiveVersion : String := ""
  BackupVersion : String := ""
deriving DecidableEq, Repr

/-- UpdateConfig mirrors the update.yaml document (updater.go lines 62-71). -/
structure UpdateConfig where
  Version : String := ""
  Kind : String := ""
  Spec : UpdateSpec := {}
  Status : UpdateStatus := {}
deriving DecidableEq, Repr

/-- OverrideConfig mirrors the per-invocation override record
(updater.go lines 234-246). -/
structure OverrideConfig where
  Proxy : String := ""
  Group : String := ""
  URLTemplate : String := ""
  ForceVersion : String := ""
deriving DecidableEq, Repr

/-- State of the persisted config file at the Updater config path.
missing models fs.ErrNotExist; corrupt models any open or decode
failure; doc holds the document a successful decode yields. -/
inductive FileState where
  | missing
  | corrupt
  | doc (cfg : UpdateConfig)
deriving DecidableEq, Repr

/-- Error identities the Updater distinguishes on collaborator results:
context.Canceled, ErrNotNeeded, ErrNotSupported, ErrLinked
(updater.go lines 195-202) and generic errors. -/
inductive UErr where
  | canceled
  | notNeeded
  | notSupported
  | linked
  | generic
deriving DecidableEq, Repr

/-- Fields consumed from the webclient.Find discovery response
(updater.go lines 282-288). -/
structure FindResponse where
  agentVersion : String := ""
  edition : String := ""
  fips : Bool := false
deriving DecidableEq, Repr

instance {ε α : Type} [DecidableEq ε] [DecidableEq α] : DecidableEq (Except ε α) :=
  fun x y =>
    match x, y with
    | .error a, .error b =>
      if h : a = b then .isTrue (congrArg Except.error h)
      else .isFalse (fun hc => h (Except.error.inj hc))
    | .ok a, .ok b =>
      if h : a = b then .isTrue (congrArg Except.ok h)
      else .isFalse (fun hc => h (Except.ok.inj hc))
    | .error _, .ok _ => .isFalse (fun hc => Except.noConfusion hc)
    | .ok _, .error _ => .isFalse (fun hc => Except.noConfusion hc)

/-- FlagEnterprise bit of InstallFlags (updater.go line 227). -/
def FlagEnterprise : Nat := 1

/-- FlagFIPS bit of InstallFlags (updater.go line 229). -/
def FlagFIPS : Nat := 2

/-- Outcomes of all collaborator calls one Enable or Disable invocation may
make. sync1 and reload1 are the results of the first Sync and first Reload
call of the invocation; sync2 and reload2 the results of the second call
when compensation reaches it. none means the Go call returned a nil error. -/
structure Env where
  parseAddrOk : Bool := true
  findResult : Except UErr FindResponse := .ok {}
  removeResult : Except UErr Unit := .ok ()
  installResult : Except UErr Unit := .ok ()
  linkResult : Except UErr Unit := .ok ()
  revertOk : Bool := true
  sync1 : Option UErr := none
  sync2 : Option UErr := none
  reload1 : Option UErr := none
  reload2 : Option UErr := none
  listResult : Except UErr (List String) := .ok []
  writeOk : Bool := true
deriving DecidableEq, Repr

/-- Collaborator calls, recorded in invocation order. -/
inductive Event where
  | findCalled
  | removeCalled (version : String)
  | installCalled (version : String) (template : String) (flags : Nat)
  | linkCalled (version : String)
  | syncCalled
  | reloadCalled
  | revertCalled
  | listCalled
  | writeCalled
deriving DecidableEq, Repr

/-- Error results of Enable and Disable, one per return site in the Go
source; syncFailed and reloadFailed carry the desired version named in the
message and the original collaborator error they wrap. -/
inductive EnableErr where
  | readFailed
  | validateFailed
  | parseAddrFailed
  | discoveryFailed
  | noVersion
  | installFailed
  | linkFailed
  | syncCanceled
  | syncFailed (version : String) (orig : UErr)
  | reloadCanceled
  | reloadFailed (version : String) (orig : UErr)
  | listFailed
  | writeFailed
deriving DecidableEq, Repr

/-- Result of one Enable or Disable invocation: the returned error if any,
the file state at the config path afterwards, and the collaborator calls
made. -/
structure EnableOutcome where
  result : Except EnableErr Unit
  file : FileState
  events : List Event
deriving DecidableEq, Repr

/-- readConfig (updater.go lines 413-436): a missing file yields the
default document with the expected tags; decode failure is an error; a
decoded document is rejected when its kind or version tag differs from
the expected constants. -/
def readConfig : FileState → Except Unit UpdateConfig
  | .missing =>
    .ok { Version := updateConfigVersion, Kind := updateConfigKind }
  | .corrupt => .error ()
  | .doc cfg =>
    if cfg.Kind ≠ updateConfigKind then .error ()
    else if cfg.Version ≠ updateConfigVersion then .error ()
    else .ok cfg

/-- validateConfigSpec (updater.go lines 456-474): merge non-empty override
fields into the spec, require an https URL template when present (matched
case-insensitively) and a non-empty proxy. Returns the merged spec. -/
def validateConfigSpec (spec : UpdateSpec) (override : OverrideConfig) :
    Except Unit UpdateSpec :=
  let spec := if override.Proxy ≠ "" then { spec with Proxy := override.Proxy } else spec
  let spec := if override.Group ≠ "" then { spec with Group := override.Group } else spec
  let spec :=
    if override.URLTemplate ≠ "" then { spec with URLTemplate := override.URLTemplate }
    else spec
  let httpsPre := "https://"
  if spec.URLTemplate ≠ "" ∧ ¬ (spec.URLTemplate.toLower.startsWith httpsPre) then
    .error ()
  else if spec.Proxy = "" then .error ()
  else .ok spec

/-- Tail of Enable after the reload stage (updater.go lines 374-391):
hygiene listing, then set enabled and persist atomically. A failed atomic
replace leaves the prior file intact. -/
def finishEnable (file : FileState) (env : Env) (cfg : UpdateConfig)
    (ev : List Event) : EnableOutcome :=
  let ev := ev ++ [Event.listCalled]
  match env.listResult with
  | .error _ => ⟨.error .listFailed, file, ev⟩
  | .ok _ =>
    let cfg := { cfg with Spec := { cfg.Spec with Enabled := true } }
    let ev := ev ++ [Event.writeCalled]
    if env.writeOk then ⟨.ok (), .doc cfg, ev⟩
    else ⟨.error .writeFailed, file, ev⟩

/-- Enable from the point where the desired version and install flags are
resolved (updater.go lines 291-391): empty version check, stale backup
pruning, install, link, sync with compensation, conditional reload with
compensation and status shift, then finishEnable. -/
def enableFrom (file : FileState) (env : Env) (cfg : UpdateConfig)
    (desired : String) (flags : Nat) (ev : List Event) : EnableOutcome :=
  if desired = "" then ⟨.error .noVersion, file, ev⟩ else
  let ev :=
    if cfg.Status.BackupVersion ≠ "" ∧ cfg.Status.BackupVersion ≠ desired ∧
        cfg.Status.BackupVersion ≠ cfg.Status.ActiveVersion ∧
        desired ≠ cfg.Status.ActiveVersion
    then ev ++ [Event.removeCalled cfg.Status.BackupVersion] else ev
  let template := if cfg.Spec.URLTemplate = "" then cdnURITemplate else cfg.Spec.URLTemplate
  let ev := ev ++ [Event.installCalled desired template flags]
  match env.installResult with
  | .error _ => ⟨.error .installFailed, file, ev⟩
  | .ok _ =>
    let ev := ev ++ [Event.linkCalled desired]
    match env.linkResult with
    | .error _ => ⟨.error .linkFailed, file, ev⟩
    | .ok _ =>
      let ev := ev ++ [Event.syncCalled]
      match env.sync1 with
      | some e =>
        if e = .canceled then ⟨.error .syncCanceled, file, ev⟩ else
        let ev := ev ++ [Event.revertCalled]
        let ev := if env.revertOk then ev ++ [Event.syncCalled] else ev
        ⟨.error (.syncFailed desired e), file, ev⟩
      | none =>
        if cfg.Status.ActiveVersion ≠ desired then
          let ev := ev ++ [Event.reloadCalled]
          match env.reload1 with
          | none =>
            finishEnable file env
              { cfg with Status := ⟨desired, cfg.Status.ActiveVersion⟩ } ev
          | some e =>
            if e = .notNeeded then
              finishEnable file env
                { cfg with Status := ⟨desired, cfg.Status.ActiveVersion⟩ } ev
            else if e = .canceled then ⟨.error .reloadCanceled, file, ev⟩ else
            let ev := ev ++ [Event.revertCalled]
            let ev :=
              if env.revertOk then
                let ev := ev ++ [Event.syncCalled]
                match env.sync2 with
                | some _ => ev
                | none => ev ++ [Event.reloadCalled]
              else ev
            ⟨.error (.reloadFailed desired e), file, ev⟩
        else
          finishEnable file env cfg ev

/-- Enable (updater.go lines 252-392): read and merge config, parse the
proxy address, resolve the desired version from the force override or from
discovery (deriving the install flags from the response), then enableFrom. -/
def enable (file : FileState) (override : OverrideConfig) (env : Env) :
    EnableOutcome :=
  match readConfig file with
  | .error _ => ⟨.error .readFailed, file, []⟩
  | .ok cfg0 =>
    match validateConfigSpec cfg0.Spec override with
    | .error _ => ⟨.error .validateFailed, file, []⟩
    | .ok spec =>
      let cfg := { cfg0 with Spec := spec }
      if env.parseAddrOk = false then ⟨.error .parseAddrFailed, file, []⟩
      else if override.ForceVersion = "" then
        match env.findResult with
        | .error _ => ⟨.error .discoveryFailed, file, [Event.findCalled]⟩
        | .ok resp =>
          let flags :=
            (if resp.edition = "ent" then FlagEnterprise else 0) +
            (if resp.fips then FlagFIPS else 0)
          enableFrom file env cfg resp.agentVersion flags [Event.findCalled]
      else
        enableFrom file env cfg override.ForceVersion 0 []

/-- Disable (updater.go lines 396-410): read config, return success without
writing when already disabled, otherwise clear enabled and persist. -/
def disable (file : FileState) (env : Env) : EnableOutcome :=
  match readConfig file with
  | .error _ => ⟨.error .readFailed, file, []⟩
  | .ok cfg =>
    if cfg.Spec.Enabled = false then ⟨.ok (), file, []⟩
    else
      let cfg := { cfg with Spec := { cfg.Spec with Enabled := false } }
      if env.writeOk then ⟨.ok (), .doc cfg, [Event.writeCalled]⟩
      else ⟨.error .writeFailed, file, [Event.writeCalled]⟩

end AgentUpdate

namespace AgentUpdate

/-! Helper lemmas about the embedded operations, shared by the claim
theorems below. -/

/-- A successfully read document always carries the expected tags. -/
theorem readConfig_ok_tags {fs : FileState} {cfg : UpdateConfig}
    (h : readConfig fs = Except.ok cfg) :
    cfg.Kind = updateConfigKind ∧ cfg.Version = updateConfigVersion := by
  cases fs with
  | missing =>
    simp only [readConfig] at h
    injection h with h
    subst h
    exact ⟨rfl, rfl⟩
  | corrupt => simp [readConfig] at h
  | doc c =>
    simp only [readConfig] at h
    split at h
    · simp at h
    next hk =>
      split at h
      · simp at h
      next hv =>
        injection h with h
        subst h
        exact ⟨not_not.mp hk, not_not.mp hv⟩

/-- finishEnable on an error outcome leaves the file untouched, and the
only error it can add after a write attempt is writeFailed. -/
theorem finishEnable_error_spec (f : FileState) (env : Env) (cfg : UpdateConfig)
    (ev : List Event) (hev : Event.writeCalled ∉ ev) (e : EnableErr)
    (h : (finishEnable f env cfg ev).result = Except.error e) :
    (finishEnable f env cfg ev).file = f ∧
      (e ≠ EnableErr.writeFailed →
        Event.writeCalled ∉ (finishEnable f env cfg ev).events) := by
  simp only [finishEnable] at h ⊢
  split at h
  · simp_all
  · split at h
    · simp_all
    · simp_all

/-- Behaviour of finishEnable when both the listing and the write
succeed. -/
theorem finishEnable_run (f : FileState) (env : Env) (cfg : UpdateConfig)
    (ev : List Event) (vs : List String) (hls : env.listResult = Except.ok vs)
    (hwr : env.writeOk = true) :
    finishEnable f env cfg ev =
      ⟨Except.ok (), FileState.doc { cfg with Spec := { cfg.Spec with Enabled := true } },
        ev ++ [Event.listCalled, Event.writeCalled]⟩ := by
  simp [finishEnable, hls, hwr]

end AgentUpdate

namespace AgentUpdate

/-- Membership in an if-then-else of lists, used to decompose event traces. -/
theorem mem_ite_list {α : Type} (a : α) (c : Prop) [Decidable c] (l₁ l₂ : List α) :
    (a ∈ (if c then l₁ else l₂)) ↔ ((c ∧ a ∈ l₁) ∨ (¬ c ∧ a ∈ l₂)) := by
  split <;> simp_all

/-- enableFrom on an error outcome leaves the file untouched, and unless the
error is the final write failing, no write was attempted. -/
theorem enableFrom_error_frame (f : FileState) (env : Env) (cfg : UpdateConfig)
    (d : String) (fl : Nat) (ev : List Event) (hev : Event.writeCalled ∉ ev) :
    ∀ e : EnableErr, (enableFrom f env cfg d fl ev).result = Except.error e →
      (enableFrom f env cfg d fl ev).file = f ∧
        (e ≠ EnableErr.writeFailed →
          Event.writeCalled ∉ (enableFrom f env cfg d fl ev).events) := by
  have key : ∀ o : EnableOutcome, enableFrom f env cfg d fl ev = o →
      ∀ e : EnableErr, o.result = Except.error e →
        o.file = f ∧ (e ≠ EnableErr.writeFailed → Event.writeCalled ∉ o.events) := by
    intro o ho
    simp only [enableFrom] at ho
    repeat' split at ho
    all_goals subst ho
    all_goals
      first
      | exact fun e he =>
          finishEnable_error_spec _ _ _ _ (by simp_all [mem_ite_list]) e he
      | (intro e he
         injection he with he
         subst he
         exact ⟨rfl, fun hne => by simp_all [mem_ite_list]⟩)
  exact key _ rfl

end AgentUpdate

namespace AgentUpdate

/-- C1: every failing invocation of Enable leaves the persisted config file
exactly as it was, and no write to the config path happens before the
final persist step: unless the failure is the persist itself, the trace
contains no write call at all. -/
theorem enable_failure_leaves_config_untouched (fs : FileState)
    (ov : OverrideConfig) (env : Env) (e : EnableErr)
    (h : (enable fs ov env).result = Except.error e) :
    (enable fs ov env).file = fs ∧
      (e ≠ EnableErr.writeFailed →
        Event.writeCalled ∉ (enable fs ov env).events) := by
  have key : ∀ o : EnableOutcome, enable fs ov env = o →
      o.result = Except.error e →
        o.file = fs ∧ (e ≠ EnableErr.writeFailed → Event.writeCalled ∉ o.events) := by
    intro o ho
    simp only [enable] at ho
    repeat' split at ho
    all_goals subst ho
    all_goals
      first
      | exact fun he =>
          enableFrom_error_frame _ _ _ _ _ _ (by simp) e he
      | (intro he
         injection he with he
         subst he
         exact ⟨rfl, fun hne => by simp⟩)
  exact key _ rfl h

/-- Witness for C1 at a concrete corrupt config file. -/
theorem enable_failure_leaves_config_untouched_witness :
    (enable FileState.corrupt {} {}).result = Except.error EnableErr.readFailed ∧
      ((enable FileState.corrupt {} {}).file = FileState.corrupt ∧
        (EnableErr.readFailed ≠ EnableErr.writeFailed →
          Event.writeCalled ∉ (enable FileState.corrupt {} {}).events)) :=
  ⟨by decide, enable_failure_leaves_config_untouched _ _ _ _ (by decide)⟩

end AgentUpdate

namespace AgentUpdate

/-- Full run of enableFrom when the desired version is already active:
no removal, no reload, no status shift; the merged spec is persisted with
enabled set. -/
theorem enableFrom_run_noshift (f : FileState) (env : Env) (cfg : UpdateConfig)
    (d : String) (fl : Nat) (ev : List Event) (hd : d ≠ "")
    (hact : cfg.Status.ActiveVersion = d)
    (hin : env.installResult = Except.ok ()) (hlk : env.linkResult = Except.ok ())
    (hsy : env.sync1 = none) (vs : List String)
    (hls : env.listResult = Except.ok vs) (hwr : env.writeOk = true) :
    enableFrom f env cfg d fl ev =
      ⟨Except.ok (), FileState.doc { cfg with Spec := { cfg.Spec with Enabled := true } },
        ev ++ [Event.installCalled d
            (if cfg.Spec.URLTemplate = "" then cdnURITemplate else cfg.Spec.URLTemplate) fl,
          Event.linkCalled d, Event.syncCalled, Event.listCalled, Event.writeCalled]⟩ := by
  simp [enableFrom, finishEnable, hd, hact, hin, hlk, hsy, hls, hwr]

/-- Full run of enableFrom when the version changes and the reload result
counts as success (nil or ErrNotNeeded): the status is shifted and
persisted. -/
theorem enableFrom_run_shift (f : FileState) (env : Env) (cfg : UpdateConfig)
    (d : String) (fl : Nat) (ev : List Event) (hd : d ≠ "")
    (hact : cfg.Status.ActiveVersion ≠ d)
    (hin : env.installResult = Except.ok ()) (hlk : env.linkResult = Except.ok ())
    (hsy : env.sync1 = none)
    (hrel : env.reload1 = none ∨ env.reload1 = some UErr.notNeeded)
    (vs : List String) (hls : env.listResult = Except.ok vs)
    (hwr : env.writeOk = true) :
    (enableFrom f env cfg d fl ev).result = Except.ok () ∧
      (enableFrom f env cfg d fl ev).file = FileState.doc { cfg with
        Spec := { cfg.Spec with Enabled := true },
        Status := ⟨d, cfg.Status.ActiveVersion⟩ } ∧
      Event.reloadCalled ∈ (enableFrom f env cfg d fl ev).events := by
  rcases hrel with hrel | hrel <;>
    simp [enableFrom, finishEnable, hd, hact, hin, hlk, hsy, hrel, hls, hwr,
      mem_ite_list]

/-- Under a successful sync, the first Reload call happens exactly when the
loaded active version differs from the desired one, whatever Reload
returns. -/
theorem enableFrom_reload_mem (f : FileState) (env : Env) (cfg : UpdateConfig)
    (d : String) (fl : Nat) (ev : List Event) (hd : d ≠ "")
    (hin : env.installResult = Except.ok ()) (hlk : env.linkResult = Except.ok ())
    (hsy : env.sync1 = none) (vs : List String)
    (hls : env.listResult = Except.ok vs) (hwr : env.writeOk = true)
    (hev : Event.reloadCalled ∉ ev) :
    Event.reloadCalled ∈ (enableFrom f env cfg d fl ev).events ↔
      cfg.Status.ActiveVersion ≠ d := by
  by_cases hact : cfg.Status.ActiveVersion = d
  · rw [enableFrom_run_noshift f env cfg d fl ev hd hact hin hlk hsy vs hls hwr]
    simp [hact, hev]
  · rcases hE : env.reload1 with _ | e
    · have := enableFrom_run_shift f env cfg d fl ev hd hact hin hlk hsy
        (Or.inl hE) vs hls hwr
      simp [hact, this.2.2]
    · by_cases hnn : e = UErr.notNeeded
      · subst hnn
        have := enableFrom_run_shift f env cfg d fl ev hd hact hin hlk hsy
          (Or.inr hE) vs hls hwr
        simp [hact, this.2.2]
      · by_cases hcn : e = UErr.canceled
        · simp [enableFrom, hd, hact, hin, hlk, hsy, hE, hnn, hcn, mem_ite_list]
        · rcases hS : env.sync2 with _ | s <;> by_cases hR : env.revertOk = true <;>
            simp [enableFrom, hd, hact, hin, hlk, hsy, hE, hnn, hcn, hS, hR,
              mem_ite_list]

/-- Once reading, validation and the proxy parse succeed and a desired
version is resolved (forced or discovered), Enable is enableFrom on the
merged config. -/
theorem enable_eq_enableFrom (fs : FileState) (ov : OverrideConfig) (env : Env)
    (cfg0 : UpdateConfig) (spec : UpdateSpec) (desired : String)
    (hread : readConfig fs = Except.ok cfg0)
    (hval : validateConfigSpec cfg0.Spec ov = Except.ok spec)
    (hpa : env.parseAddrOk = true)
    (hres : (ov.ForceVersion = desired ∧ desired ≠ "") ∨
      (ov.ForceVersion = "" ∧
        ∃ resp, env.findResult = Except.ok resp ∧ resp.agentVersion = desired)) :
    ∃ fl ev0, (ev0 = [] ∨ ev0 = [Event.findCalled]) ∧
      enable fs ov env = enableFrom fs env { cfg0 with Spec := spec } desired fl ev0 := by
  rcases hres with ⟨hfv, hne⟩ | ⟨hfv, resp, hfr, hav⟩
  · refine ⟨0, [], Or.inl rfl, ?_⟩
    simp [enable, hread, hval, hpa, hfv, hne]
  · refine ⟨(if resp.edition = "ent" then FlagEnterprise else 0) +
      (if resp.fips then FlagFIPS else 0), [Event.findCalled], Or.inr rfl, ?_⟩
    simp [enable, hread, hval, hpa, hfv, hfr, hav]

end AgentUpdate

namespace AgentUpdate

/-- Sample spec used by concrete witnesses. -/
def specW : UpdateSpec := { Proxy := "proxy.example.com" }

/-- Sample persisted document used by concrete witnesses: version 15.0.0
active, 14.3.0 kept as backup. -/
def cfgW : UpdateConfig :=
  { Version := "v1", Kind := "update_config", Spec := specW,
    Status := { ActiveVersion := "15.0.0", BackupVersion := "14.3.0" } }

/-- Sample override used by concrete witnesses: no overrides. -/
def ovW : OverrideConfig := {}

/-- Sample environment used by concrete witnesses: discovery offers
15.1.0 and every collaborator call succeeds. -/
def envW : Env := { findResult := Except.ok { agentVersion := "15.1.0" } }

/-- Version string offered by the sample discovery response. -/
def v151 : String := "15.1.0"

/-- C2: under a successful sync, Reload is called iff the loaded active
version differs from the desired one; nil or ErrNotNeeded advances the
status by shifting backup and active; matching versions leave the loaded
status fields untouched in the persisted document. -/
theorem enable_reload_iff_version_change (fs : FileState) (ov : OverrideConfig)
    (env : Env) (cfg0 : UpdateConfig) (spec : UpdateSpec) (desired : String)
    (vs : List String)
    (hread : readConfig fs = Except.ok cfg0)
    (hval : validateConfigSpec cfg0.Spec ov = Except.ok spec)
    (hpa : env.parseAddrOk = true)
    (hres : (ov.ForceVersion = desired ∧ desired ≠ "") ∨
      (ov.ForceVersion = "" ∧
        ∃ resp, env.findResult = Except.ok resp ∧ resp.agentVersion = desired))
    (hdz : desired ≠ "")
    (hin : env.installResult = Except.ok ()) (hlk : env.linkResult = Except.ok ())
    (hsy : env.sync1 = none) (hls : env.listResult = Except.ok vs)
    (hwr : env.writeOk = true) :
    (Event.reloadCalled ∈ (enable fs ov env).events ↔
      cfg0.Status.ActiveVersion ≠ desired) ∧
    (cfg0.Status.ActiveVersion = desired →
      (enable fs ov env).result = Except.ok () ∧
      (enable fs ov env).file =
        FileState.doc { cfg0 with Spec := { spec with Enabled := true } }) ∧
    (cfg0.Status.ActiveVersion ≠ desired →
      (env.reload1 = none ∨ env.reload1 = some UErr.notNeeded) →
      (enable fs ov env).result = Except.ok () ∧
      (enable fs ov env).file = FileState.doc { cfg0 with
        Spec := { spec with Enabled := true },
        Status := ⟨desired, cfg0.Status.ActiveVersion⟩ }) := by
  obtain ⟨fl, ev0, hev0, heq⟩ :=
    enable_eq_enableFrom fs ov env cfg0 spec desired hread hval hpa hres
  have hev : Event.reloadCalled ∉ ev0 := by
    rcases hev0 with rfl | rfl <;> simp
  rw [heq]
  refine ⟨?_, ?_, ?_⟩
  · have := enableFrom_reload_mem fs env { cfg0 with Spec := spec } desired fl ev0
      hdz hin hlk hsy vs hls hwr hev
    simpa using this
  · intro hact
    have h2 := enableFrom_run_noshift fs env { cfg0 with Spec := spec } desired fl
      ev0 hdz (by simpa using hact) hin hlk hsy vs hls hwr
    rw [h2]
    exact ⟨rfl, by simp⟩
  · intro hact hrel
    have h3 := enableFrom_run_shift fs env { cfg0 with Spec := spec } desired fl
      ev0 hdz (by simpa using hact) hin hlk hsy hrel vs hls hwr
    refine ⟨h3.1, ?_⟩
    rw [h3.2.1]

end AgentUpdate

namespace AgentUpdate

/-- Witness for C2 at the concrete upgrade scenario 15.0.0 to 15.1.0. -/
theorem enable_reload_iff_version_change_witness :
    readConfig (FileState.doc cfgW) = Except.ok cfgW ∧
    validateConfigSpec cfgW.Spec ovW = Except.ok specW ∧
    envW.parseAddrOk = true ∧
    ovW.ForceVersion = "" ∧
    envW.findResult = Except.ok { agentVersion := "15.1.0" } ∧
    envW.installResult = Except.ok () ∧ envW.linkResult = Except.ok () ∧
    envW.sync1 = none ∧ envW.listResult = Except.ok [] ∧ envW.writeOk = true ∧
    ((Event.reloadCalled ∈ (enable (FileState.doc cfgW) ovW envW).events ↔
        cfgW.Status.ActiveVersion ≠ "15.1.0") ∧
      (cfgW.Status.ActiveVersion = "15.1.0" →
        (enable (FileState.doc cfgW) ovW envW).result = Except.ok () ∧
        (enable (FileState.doc cfgW) ovW envW).file =
          FileState.doc { cfgW with Spec := { specW with Enabled := true } }) ∧
      (cfgW.Status.ActiveVersion ≠ "15.1.0" →
        (envW.reload1 = none ∨ envW.reload1 = some UErr.notNeeded) →
        (enable (FileState.doc cfgW) ovW envW).result = Except.ok () ∧
        (enable (FileState.doc cfgW) ovW envW).file = FileState.doc { cfgW with
          Spec := { specW with Enabled := true },
          Status := ⟨v151, cfgW.Status.ActiveVersion⟩ })) :=
  ⟨by decide, by decide, rfl, rfl, rfl, rfl, rfl, rfl, rfl, rfl,
    enable_reload_iff_version_change (FileState.doc cfgW) ovW envW cfgW specW
      v151 [] (by decide) (by decide) rfl
      (Or.inr ⟨rfl, ⟨{ agentVersion := "15.1.0" }, rfl, rfl⟩⟩)
      (by decide) rfl rfl rfl rfl rfl⟩

end AgentUpdate

namespace AgentUpdate

/-- Behaviour of enableFrom when the first Sync fails: cancellation skips
compensation; any other error triggers revert, a best-effort second Sync
only when revert succeeded, and a failure naming the desired version. -/
theorem enableFrom_sync_fail (f : FileState) (env : Env) (cfg : UpdateConfig)
    (d : String) (fl : Nat) (ev : List Event) (hd : d ≠ "")
    (hin : env.installResult = Except.ok ()) (hlk : env.linkResult = Except.ok ())
    (e : UErr) (hsy : env.sync1 = some e)
    (hevS : Event.syncCalled ∉ ev) (hevR : Event.revertCalled ∉ ev) :
    (e = UErr.canceled →
      (enableFrom f env cfg d fl ev).result = Except.error EnableErr.syncCanceled ∧
      Event.revertCalled ∉ (enableFrom f env cfg d fl ev).events) ∧
    (e ≠ UErr.canceled →
      (enableFrom f env cfg d fl ev).result =
        Except.error (EnableErr.syncFailed d e) ∧
      Event.revertCalled ∈ (enableFrom f env cfg d fl ev).events ∧
      (enableFrom f env cfg d fl ev).events.count Event.syncCalled =
        (if env.revertOk = true then 2 else 1)) := by
  have h0 : List.count Event.syncCalled ev = 0 := List.count_eq_zero.mpr hevS
  constructor
  · intro he
    subst he
    simp [enableFrom, hd, hin, hlk, hsy, mem_ite_list, hevR]
  · intro hne
    by_cases hR : env.revertOk = true <;>
      simp [enableFrom, hd, hin, hlk, hsy, hne, hR, mem_ite_list, h0,
        apply_ite (List.count Event.syncCalled), List.count_append,
        List.count_cons, List.count_nil]

/-- C3: when the first Sync fails after a successful Link, a cancellation
aborts with the dedicated error and no revert; any other Sync error causes
revert, a second Sync exactly when revert reported success, and an error
naming the desired version wrapping the Sync error. -/
theorem enable_sync_failure_compensation (fs : FileState) (ov : OverrideConfig)
    (env : Env) (cfg0 : UpdateConfig) (spec : UpdateSpec) (desired : String)
    (e : UErr)
    (hread : readConfig fs = Except.ok cfg0)
    (hval : validateConfigSpec cfg0.Spec ov = Except.ok spec)
    (hpa : env.parseAddrOk = true)
    (hres : (ov.ForceVersion = desired ∧ desired ≠ "") ∨
      (ov.ForceVersion = "" ∧
        ∃ resp, env.findResult = Except.ok resp ∧ resp.agentVersion = desired))
    (hdz : desired ≠ "")
    (hin : env.installResult = Except.ok ()) (hlk : env.linkResult = Except.ok ())
    (hsy : env.sync1 = some e) :
    (e = UErr.canceled →
      (enable fs ov env).result = Except.error EnableErr.syncCanceled ∧
      Event.revertCalled ∉ (enable fs ov env).events) ∧
    (e ≠ UErr.canceled →
      (enable fs ov env).result = Except.error (EnableErr.syncFailed desired e) ∧
      Event.revertCalled ∈ (enable fs ov env).events ∧
      (enable fs ov env).events.count Event.syncCalled =
        (if env.revertOk = true then 2 else 1)) := by
  obtain ⟨fl, ev0, hev0, heq⟩ :=
    enable_eq_enableFrom fs ov env cfg0 spec desired hread hval hpa hres
  rw [heq]
  exact enableFrom_sync_fail fs env { cfg0 with Spec := spec } desired fl ev0 hdz
    hin hlk e hsy
    (by rcases hev0 with rfl | rfl <;> simp)
    (by rcases hev0 with rfl | rfl <;> simp)

/-- Environment where the first Sync fails with a generic error. -/
def envSyncFailW : Env := { envW with sync1 := some UErr.generic }

/-- Witness for C3 at a concrete generic sync failure during an upgrade. -/
theorem enable_sync_failure_compensation_witness :
    readConfig (FileState.doc cfgW) = Except.ok cfgW ∧
    validateConfigSpec cfgW.Spec ovW = Except.ok specW ∧
    envSyncFailW.parseAddrOk = true ∧
    ovW.ForceVersion = "" ∧
    envSyncFailW.findResult = Except.ok { agentVersion := "15.1.0" } ∧
    envSyncFailW.installResult = Except.ok () ∧
    envSyncFailW.linkResult = Except.ok () ∧
    envSyncFailW.sync1 = some UErr.generic ∧
    ((UErr.generic = UErr.canceled →
        (enable (FileState.doc cfgW) ovW envSyncFailW).result =
          Except.error EnableErr.syncCanceled ∧
        Event.revertCalled ∉ (enable (FileState.doc cfgW) ovW envSyncFailW).events) ∧
      (UErr.generic ≠ UErr.canceled →
        (enable (FileState.doc cfgW) ovW envSyncFailW).result =
          Except.error (EnableErr.syncFailed v151 UErr.generic) ∧
        Event.revertCalled ∈ (enable (FileState.doc cfgW) ovW envSyncFailW).events ∧
        (enable (FileState.doc cfgW) ovW envSyncFailW).events.count
            Event.syncCalled =
          (if envSyncFailW.revertOk = true then 2 else 1))) :=
  ⟨by decide, by decide, rfl, rfl, rfl, rfl, rfl, rfl,
    enable_sync_failure_compensation (FileState.doc cfgW) ovW envSyncFailW cfgW
      specW v151 UErr.generic (by decide) (by decide) rfl
      (Or.inr ⟨rfl, ⟨{ agentVersion := "15.1.0" }, rfl, rfl⟩⟩)
      (by decide) rfl rfl rfl⟩

end AgentUpdate

namespace AgentUpdate

/-- finishEnable only appends listing and write events. -/
theorem finishEnable_mem_other (f : FileState) (env : Env) (cfg : UpdateConfig)
    (ev : List Event) (x : Event) (hx1 : x ≠ Event.listCalled)
    (hx2 : x ≠ Event.writeCalled) :
    x ∈ (finishEnable f env cfg ev).events ↔ x ∈ ev := by
  simp only [finishEnable]
  split
  · simp [hx1]
  · split <;> simp [hx1, hx2]

/-- The backup removal call happens exactly for the loaded backup version
and exactly under the pruning condition of the source, whatever the later
steps do. -/
theorem enableFrom_remove_mem (f : FileState) (env : Env) (cfg : UpdateConfig)
    (d : String) (fl : Nat) (ev : List Event) (hd : d ≠ "")
    (hev : ∀ w, Event.removeCalled w ∉ ev) (v : String) :
    Event.removeCalled v ∈ (enableFrom f env cfg d fl ev).events ↔
      (v = cfg.Status.BackupVersion ∧ cfg.Status.BackupVersion ≠ "" ∧
        cfg.Status.BackupVersion ≠ d ∧
        cfg.Status.BackupVersion ≠ cfg.Status.ActiveVersion ∧
        d ≠ cfg.Status.ActiveVersion) := by
  have key : ∀ o : EnableOutcome, enableFrom f env cfg d fl ev = o →
      (Event.removeCalled v ∈ o.events ↔
        (v = cfg.Status.BackupVersion ∧ cfg.Status.BackupVersion ≠ "" ∧
          cfg.Status.BackupVersion ≠ d ∧
          cfg.Status.BackupVersion ≠ cfg.Status.ActiveVersion ∧
          d ≠ cfg.Status.ActiveVersion)) := by
    intro o ho
    simp only [enableFrom] at ho
    repeat' split at ho
    all_goals subst ho
    all_goals simp_all [finishEnable_mem_other, mem_ite_list]
  exact key _ rfl

end AgentUpdate

namespace AgentUpdate

/-- The outcome of enableFrom does not depend on the removal result: a
failed backup removal is only logged. -/
theorem enableFrom_remove_result_irrelevant (f : FileState) (cfg : UpdateConfig)
    (d : String) (fl : Nat) (ev : List Event) (p : Bool)
    (fr : Except UErr FindResponse) (ra ins lnk : Except UErr Unit)
    (rv : Bool) (s1 s2 r1 r2 : Option UErr) (ls : Except UErr (List String))
    (w : Bool) :
    enableFrom f ⟨p, fr, ra, ins, lnk, rv, s1, s2, r1, r2, ls, w⟩ cfg d fl ev =
      enableFrom f ⟨p, fr, Except.ok (), ins, lnk, rv, s1, s2, r1, r2, ls, w⟩
        cfg d fl ev := by
  simp [enableFrom, finishEnable]

/-- The outcome of Enable does not depend on the removal result. -/
theorem enable_remove_result_irrelevant (fs : FileState) (ov : OverrideConfig)
    (env : Env) (r : Except UErr Unit) :
    enable fs ov { env with removeResult := r } =
      enable fs ov { env with removeResult := Except.ok () } := by
  cases env
  simp [enable, enableFrom_remove_result_irrelevant]

end AgentUpdate

namespace AgentUpdate

/-- C4: the stale backup is removed exactly when it is non-empty, differs
from the desired version, differs from the active version and the desired
version is not the active one; a failing removal never changes the
outcome. -/
theorem enable_backup_removal_condition (fs : FileState) (ov : OverrideConfig)
    (env : Env) (cfg0 : UpdateConfig) (spec : UpdateSpec) (desired : String)
    (hread : readConfig fs = Except.ok cfg0)
    (hval : validateConfigSpec cfg0.Spec ov = Except.ok spec)
    (hpa : env.parseAddrOk = true)
    (hres : (ov.ForceVersion = desired ∧ desired ≠ "") ∨
      (ov.ForceVersion = "" ∧
        ∃ resp, env.findResult = Except.ok resp ∧ resp.agentVersion = desired))
    (hdz : desired ≠ "") :
    (∀ v, Event.removeCalled v ∈ (enable fs ov env).events ↔
      (v = cfg0.Status.BackupVersion ∧ cfg0.Status.BackupVersion ≠ "" ∧
        cfg0.Status.BackupVersion ≠ desired ∧
        cfg0.Status.BackupVersion ≠ cfg0.Status.ActiveVersion ∧
        desired ≠ cfg0.Status.ActiveVersion)) ∧
    (∀ r₁ r₂ : Except UErr Unit,
      enable fs ov { env with removeResult := r₁ } =
        enable fs ov { env with removeResult := r₂ }) := by
  obtain ⟨fl, ev0, hev0, heq⟩ :=
    enable_eq_enableFrom fs ov env cfg0 spec desired hread hval hpa hres
  constructor
  · intro v
    rw [heq]
    have := enableFrom_remove_mem fs env { cfg0 with Spec := spec } desired fl ev0
      hdz (by rcases hev0 with rfl | rfl <;> simp) v
    simpa using this
  · intro r₁ r₂
    exact (enable_remove_result_irrelevant fs ov env r₁).trans
      (enable_remove_result_irrelevant fs ov env r₂).symm

/-- Witness for C4: upgrading to 15.1.0 with backup 14.3.0 removes exactly
that backup. -/
theorem enable_backup_removal_condition_witness :
    readConfig (FileState.doc cfgW) = Except.ok cfgW ∧
    validateConfigSpec cfgW.Spec ovW = Except.ok specW ∧
    envW.parseAddrOk = true ∧
    ovW.ForceVersion = "" ∧
    envW.findResult = Except.ok { agentVersion := "15.1.0" } ∧
    ((∀ v, Event.removeCalled v ∈ (enable (FileState.doc cfgW) ovW envW).events ↔
        (v = cfgW.Status.BackupVersion ∧ cfgW.Status.BackupVersion ≠ "" ∧
          cfgW.Status.BackupVersion ≠ "15.1.0" ∧
          cfgW.Status.BackupVersion ≠ cfgW.Status.ActiveVersion ∧
          "15.1.0" ≠ cfgW.Status.ActiveVersion)) ∧
      (∀ r₁ r₂ : Except UErr Unit,
        enable (FileState.doc cfgW) ovW { envW with removeResult := r₁ } =
          enable (FileState.doc cfgW) ovW { envW with removeResult := r₂ })) :=
  ⟨by decide, by decide, rfl, rfl, rfl,
    enable_backup_removal_condition (FileState.doc cfgW) ovW envW cfgW specW
      v151 (by decide) (by decide) rfl
      (Or.inr ⟨rfl, ⟨{ agentVersion := "15.1.0" }, rfl, rfl⟩⟩) (by decide)⟩

end AgentUpdate

namespace AgentUpdate

/-- enableFrom never issues a discovery request. -/
theorem enableFrom_find_mem (f : FileState) (env : Env) (cfg : UpdateConfig)
    (d : String) (fl : Nat) (ev : List Event) :
    Event.findCalled ∈ (enableFrom f env cfg d fl ev).events ↔
      Event.findCalled ∈ ev := by
  have key : ∀ o : EnableOutcome, enableFrom f env cfg d fl ev = o →
      (Event.findCalled ∈ o.events ↔ Event.findCalled ∈ ev) := by
    intro o ho
    simp only [enableFrom] at ho
    repeat' split at ho
    all_goals subst ho
    all_goals simp_all [finishEnable_mem_other, mem_ite_list]
  exact key _ rfl

/-- The install call of enableFrom carries exactly the desired version, the
effective template and the given flags, and it happens whenever the desired
version is non-empty. -/
theorem enableFrom_install_mem (f : FileState) (env : Env) (cfg : UpdateConfig)
    (d : String) (fl : Nat) (ev : List Event) (hd : d ≠ "")
    (hev : ∀ w t g, Event.installCalled w t g ∉ ev) (v t : String) (g : Nat) :
    Event.installCalled v t g ∈ (enableFrom f env cfg d fl ev).events ↔
      (v = d ∧
        t = (if cfg.Spec.URLTemplate = "" then cdnURITemplate
          else cfg.Spec.URLTemplate) ∧
        g = fl) := by
  have key : ∀ o : EnableOutcome, enableFrom f env cfg d fl ev = o →
      (Event.installCalled v t g ∈ o.events ↔
        (v = d ∧
          t = (if cfg.Spec.URLTemplate = "" then cdnURITemplate
            else cfg.Spec.URLTemplate) ∧
          g = fl)) := by
    intro o ho
    simp only [enableFrom] at ho
    repeat' split at ho
    all_goals subst ho
    all_goals simp_all [finishEnable_mem_other, mem_ite_list]
  exact key _ rfl

/-- C5: a forced version skips discovery and installs the forced string
with zero flags; otherwise discovery supplies the version, the enterprise
flag is set iff the edition is ent and the FIPS flag iff the response says
so; an empty resolved version aborts before any installer call. -/
theorem enable_force_version_and_discovery_flags (fs : FileState)
    (ov : OverrideConfig) (env : Env) (cfg0 : UpdateConfig) (spec : UpdateSpec)
    (hread : readConfig fs = Except.ok cfg0)
    (hval : validateConfigSpec cfg0.Spec ov = Except.ok spec)
    (hpa : env.parseAddrOk = true) :
    (ov.ForceVersion ≠ "" →
      Event.findCalled ∉ (enable fs ov env).events ∧
      (∀ v t g, Event.installCalled v t g ∈ (enable fs ov env).events ↔
        (v = ov.ForceVersion ∧
          t = (if spec.URLTemplate = "" then cdnURITemplate
            else spec.URLTemplate) ∧
          g = 0))) ∧
    (∀ resp, ov.ForceVersion = "" → env.findResult = Except.ok resp →
      Event.findCalled ∈ (enable fs ov env).events ∧
      (resp.agentVersion ≠ "" →
        ∀ v t g, Event.installCalled v t g ∈ (enable fs ov env).events ↔
          (v = resp.agentVersion ∧
            t = (if spec.URLTemplate = "" then cdnURITemplate
              else spec.URLTemplate) ∧
            g = (if resp.edition = "ent" then FlagEnterprise else 0) +
              (if resp.fips then FlagFIPS else 0))) ∧
      (resp.agentVersion = "" →
        enable fs ov env =
          ⟨Except.error EnableErr.noVersion, fs, [Event.findCalled]⟩)) := by
  constructor
  · intro hf
    have heq : enable fs ov env =
        enableFrom fs env { cfg0 with Spec := spec } ov.ForceVersion 0 [] := by
      simp [enable, hread, hval, hpa, hf]
    rw [heq]
    constructor
    · simp [enableFrom_find_mem]
    · intro v t g
      have := enableFrom_install_mem fs env { cfg0 with Spec := spec }
        ov.ForceVersion 0 [] hf (by simp) v t g
      simpa using this
  · intro resp h0 hfr
    have heq : enable fs ov env =
        enableFrom fs env { cfg0 with Spec := spec } resp.agentVersion
          ((if resp.edition = "ent" then FlagEnterprise else 0) +
            (if resp.fips then FlagFIPS else 0)) [Event.findCalled] := by
      simp [enable, hread, hval, hpa, h0, hfr]
    rw [heq]
    refine ⟨by simp [enableFrom_find_mem], ?_, ?_⟩
    · intro hne v t g
      have := enableFrom_install_mem fs env { cfg0 with Spec := spec }
        resp.agentVersion
        ((if resp.edition = "ent" then FlagEnterprise else 0) +
          (if resp.fips then FlagFIPS else 0))
        [Event.findCalled] hne (by simp) v t g
      simpa using this
    · intro hz
      simp [enableFrom, hz]

/-- Witness for C5: discovery supplies 15.1.0 with no flags set. -/
theorem enable_force_version_and_discovery_flags_witness :
    readConfig (FileState.doc cfgW) = Except.ok cfgW ∧
    validateConfigSpec cfgW.Spec ovW = Except.ok specW ∧
    envW.parseAddrOk = true ∧
    ((ovW.ForceVersion ≠ "" →
        Event.findCalled ∉ (enable (FileState.doc cfgW) ovW envW).events ∧
        (∀ v t g,
          Event.installCalled v t g ∈ (enable (FileState.doc cfgW) ovW envW).events ↔
            (v = ovW.ForceVersion ∧
              t = (if specW.URLTemplate = "" then cdnURITemplate
                else specW.URLTemplate) ∧
              g = 0))) ∧
      (∀ resp, ovW.ForceVersion = "" → envW.findResult = Except.ok resp →
        Event.findCalled ∈ (enable (FileState.doc cfgW) ovW envW).events ∧
        (resp.agentVersion ≠ "" →
          ∀ v t g,
            Event.installCalled v t g ∈
                (enable (FileState.doc cfgW) ovW envW).events ↔
              (v = resp.agentVersion ∧
                t = (if specW.URLTemplate = "" then cdnURITemplate
                  else specW.URLTemplate) ∧
                g = (if resp.edition = "ent" then FlagEnterprise else 0) +
                  (if resp.fips then FlagFIPS else 0))) ∧
        (resp.agentVersion = "" →
          enable (FileState.doc cfgW) ovW envW =
            ⟨Except.error EnableErr.noVersion, FileState.doc cfgW,
              [Event.findCalled]⟩))) :=
  ⟨by decide, by decide, rfl,
    enable_force_version_and_discovery_flags (FileState.doc cfgW) ovW envW cfgW
      specW (by decide) (by decide) rfl⟩

end AgentUpdate

namespace AgentUpdate

/-- C10: even with a forced version (discovery bypassed), a proxy address
that fails to parse aborts Enable before any collaborator call or disk
write, leaving the config file untouched. -/
theorem enable_force_parse_failure_no_side_effects (fs : FileState)
    (ov : OverrideConfig) (env : Env) (cfg0 : UpdateConfig) (spec : UpdateSpec)
    (_hforce : ov.ForceVersion ≠ "")
    (hread : readConfig fs = Except.ok cfg0)
    (hval : validateConfigSpec cfg0.Spec ov = Except.ok spec)
    (hpa : env.parseAddrOk = false) :
    enable fs ov env = ⟨Except.error EnableErr.parseAddrFailed, fs, []⟩ := by
  simp [enable, hread, hval, hpa]

/-- Override forcing version 15.2.0, used by concrete witnesses. -/
def ovForceW : OverrideConfig := { ForceVersion := "15.2.0" }

/-- Environment whose proxy address parse fails. -/
def envNoParseW : Env := { parseAddrOk := false }

/-- Witness for C10 at a concrete forced version with a bad proxy. -/
theorem enable_force_parse_failure_no_side_effects_witness :
    ovForceW.ForceVersion ≠ "" ∧
    readConfig (FileState.doc cfgW) = Except.ok cfgW ∧
    validateConfigSpec cfgW.Spec ovForceW = Except.ok specW ∧
    envNoParseW.parseAddrOk = false ∧
    enable (FileState.doc cfgW) ovForceW envNoParseW =
      ⟨Except.error EnableErr.parseAddrFailed, FileState.doc cfgW, []⟩ :=
  ⟨by decide, by decide, by decide, rfl,
    enable_force_parse_failure_no_side_effects (FileState.doc cfgW) ovForceW
      envNoParseW cfgW specW (by decide) (by decide) (by decide) rfl⟩

end AgentUpdate

namespace AgentUpdate

/-- Environment in which only the hygiene listing fails. -/
def envListFailW : Env := { envW with listResult := Except.error UErr.generic }

/-- Counterexample for C7: with every other step succeeding, a failing
Installer.List makes Enable return an error and the configuration is not
persisted. -/
theorem enable_list_error_counterexample :
    (enable (FileState.doc cfgW) ovW envListFailW).result =
      Except.error EnableErr.listFailed ∧
    Event.writeCalled ∉ (enable (FileState.doc cfgW) ovW envListFailW).events ∧
    (enable (FileState.doc cfgW) ovW envListFailW).file = FileState.doc cfgW := by
  decide

/-- The outcome of enableFrom does not depend on which versions a
successful listing returns. -/
theorem enableFrom_list_content_irrelevant (f : FileState) (cfg : UpdateConfig)
    (d : String) (fl : Nat) (ev : List Event) (p : Bool)
    (fr : Except UErr FindResponse) (rm ins lnk : Except UErr Unit)
    (rv : Bool) (s1 s2 r1 r2 : Option UErr) (vs : List String) (w : Bool) :
    enableFrom f ⟨p, fr, rm, ins, lnk, rv, s1, s2, r1, r2, Except.ok vs, w⟩
        cfg d fl ev =
      enableFrom f ⟨p, fr, rm, ins, lnk, rv, s1, s2, r1, r2, Except.ok [], w⟩
        cfg d fl ev := by
  simp [enableFrom, finishEnable]

/-- The outcome of Enable does not depend on which versions a successful
listing returns. -/
theorem enable_list_content_irrelevant (fs : FileState) (ov : OverrideConfig)
    (env : Env) (vs : List String) :
    enable fs ov { env with listResult := Except.ok vs } =
      enable fs ov { env with listResult := Except.ok [] } := by
  cases env
  simp [enable, enableFrom_list_content_irrelevant]

/-- When the listing fails, enableFrom returns an error, writes nothing and
leaves the file untouched. -/
theorem enableFrom_list_error (f : FileState) (env : Env) (cfg : UpdateConfig)
    (d : String) (fl : Nat) (ev : List Event) (er : UErr)
    (hls : env.listResult = Except.error er) (hev : Event.writeCalled ∉ ev) :
    (∀ u : Unit, (enableFrom f env cfg d fl ev).result ≠ Except.ok u) ∧
    Event.writeCalled ∉ (enableFrom f env cfg d fl ev).events ∧
    (enableFrom f env cfg d fl ev).file = f := by
  have key : ∀ o : EnableOutcome, enableFrom f env cfg d fl ev = o →
      (∀ u : Unit, o.result ≠ Except.ok u) ∧
      Event.writeCalled ∉ o.events ∧ o.file = f := by
    intro o ho
    simp only [enableFrom] at ho
    repeat' split at ho
    all_goals subst ho
    all_goals simp_all [finishEnable, mem_ite_list]
  exact key _ rfl

/-- When the listing fails, Enable returns an error, writes nothing and
leaves the file untouched. -/
theorem enable_list_error (fs : FileState) (ov : OverrideConfig) (env : Env)
    (er : UErr) (hls : env.listResult = Except.error er) :
    (∀ u : Unit, (enable fs ov env).result ≠ Except.ok u) ∧
    Event.writeCalled ∉ (enable fs ov env).events ∧
    (enable fs ov env).file = fs := by
  have key : ∀ o : EnableOutcome, enable fs ov env = o →
      (∀ u : Unit, o.result ≠ Except.ok u) ∧
      Event.writeCalled ∉ o.events ∧ o.file = fs := by
    intro o ho
    simp only [enable] at ho
    repeat' split at ho
    all_goals
      first
      | (subst ho
         exact enableFrom_list_error _ _ _ _ _ _ er hls (by simp))
      | (subst ho; simp_all)
  exact key _ rfl

/-- C7 amended: the hygiene warning itself never affects the outcome (the
result is independent of which versions a successful listing returns), but
an error from the listing does abort Enable before the persist step. -/
theorem enable_hygiene_list_amended (fs : FileState) (ov : OverrideConfig)
    (env : Env) (er : UErr) :
    (∀ vs vs' : List String,
      enable fs ov { env with listResult := Except.ok vs } =
        enable fs ov { env with listResult := Except.ok vs' }) ∧
    (env.listResult = Except.error er →
      (∀ u : Unit, (enable fs ov env).result ≠ Except.ok u) ∧
      Event.writeCalled ∉ (enable fs ov env).events ∧
      (enable fs ov env).file = fs) := by
  constructor
  · intro vs vs'
    exact (enable_list_content_irrelevant fs ov env vs).trans
      (enable_list_content_irrelevant fs ov env vs').symm
  · intro hls
    exact enable_list_error fs ov env er hls

/-- Witness for the amended C7 at the concrete failing listing. -/
theorem enable_hygiene_list_amended_witness :
    envListFailW.listResult = Except.error UErr.generic ∧
    ((∀ vs vs' : List String,
        enable (FileState.doc cfgW) ovW { envListFailW with listResult := Except.ok vs } =
          enable (FileState.doc cfgW) ovW
            { envListFailW with listResult := Except.ok vs' }) ∧
      (envListFailW.listResult = Except.error UErr.generic →
        (∀ u : Unit,
          (enable (FileState.doc cfgW) ovW envListFailW).result ≠ Except.ok u) ∧
        Event.writeCalled ∉ (enable (FileState.doc cfgW) ovW envListFailW).events ∧
        (enable (FileState.doc cfgW) ovW envListFailW).file =
          FileState.doc cfgW)) :=
  ⟨rfl, enable_hygiene_list_amended (FileState.doc cfgW) ovW envListFailW
    UErr.generic⟩

end AgentUpdate

namespace AgentUpdate

/-- Environment in which the first Sync reports ErrNotSupported. -/
def envSyncNotSupW : Env := { envW with sync1 := some UErr.notSupported }

/-- Counterexample for C8: ErrNotSupported from Sync is not treated as
success; revert runs, nothing is persisted and Enable fails. -/
theorem enable_not_supported_counterexample :
    (enable (FileState.doc cfgW) ovW envSyncNotSupW).result =
      Except.error (EnableErr.syncFailed v151 UErr.notSupported) ∧
    Event.revertCalled ∈ (enable (FileState.doc cfgW) ovW envSyncNotSupW).events ∧
    Event.writeCalled ∉ (enable (FileState.doc cfgW) ovW envSyncNotSupW).events := by
  decide

/-- Behaviour of enableFrom when the first Reload fails with an error that
is neither ErrNotNeeded nor a cancellation: compensation runs and the
failure names the desired version. -/
theorem enableFrom_reload_fail (f : FileState) (env : Env) (cfg : UpdateConfig)
    (d : String) (fl : Nat) (ev : List Event) (hd : d ≠ "")
    (hact : cfg.Status.ActiveVersion ≠ d)
    (hin : env.installResult = Except.ok ()) (hlk : env.linkResult = Except.ok ())
    (hsy : env.sync1 = none) (e : UErr) (hrel : env.reload1 = some e)
    (hnn : e ≠ UErr.notNeeded) (hcn : e ≠ UErr.canceled) :
    (enableFrom f env cfg d fl ev).result =
      Except.error (EnableErr.reloadFailed d e) ∧
    Event.revertCalled ∈ (enableFrom f env cfg d fl ev).events := by
  rcases hS : env.sync2 with _ | s <;> by_cases hR : env.revertOk = true <;>
    simp [enableFrom, hd, hact, hin, hlk, hsy, hrel, hnn, hcn, hS, hR,
      mem_ite_list]

/-- C8 amended: ErrNotSupported from Sync or from Reload is handled as an
ordinary non-cancellation failure: revert is invoked, no status shift or
persist happens, the config file is untouched, and Enable returns an error
naming the desired version. -/
theorem enable_not_supported_is_failure (fs : FileState) (ov : OverrideConfig)
    (env : Env) (cfg0 : UpdateConfig) (spec : UpdateSpec) (desired : String)
    (hread : readConfig fs = Except.ok cfg0)
    (hval : validateConfigSpec cfg0.Spec ov = Except.ok spec)
    (hpa : env.parseAddrOk = true)
    (hres : (ov.ForceVersion = desired ∧ desired ≠ "") ∨
      (ov.ForceVersion = "" ∧
        ∃ resp, env.findResult = Except.ok resp ∧ resp.agentVersion = desired))
    (hdz : desired ≠ "")
    (hin : env.installResult = Except.ok ()) (hlk : env.linkResult = Except.ok ()) :
    (env.sync1 = some UErr.notSupported →
      (enable fs ov env).result =
        Except.error (EnableErr.syncFailed desired UErr.notSupported) ∧
      Event.revertCalled ∈ (enable fs ov env).events ∧
      Event.writeCalled ∉ (enable fs ov env).events ∧
      (enable fs ov env).file = fs) ∧
    (env.sync1 = none → cfg0.Status.ActiveVersion ≠ desired →
      env.reload1 = some UErr.notSupported →
      (enable fs ov env).result =
        Except.error (EnableErr.reloadFailed desired UErr.notSupported) ∧
      Event.revertCalled ∈ (enable fs ov env).events ∧
      Event.writeCalled ∉ (enable fs ov env).events ∧
      (enable fs ov env).file = fs) := by
  obtain ⟨fl, ev0, hev0, heq⟩ :=
    enable_eq_enableFrom fs ov env cfg0 spec desired hread hval hpa hres
  have hevW : Event.writeCalled ∉ ev0 := by rcases hev0 with rfl | rfl <;> simp
  constructor
  · intro hsy
    have hmain := (enableFrom_sync_fail fs env { cfg0 with Spec := spec } desired
      fl ev0 hdz hin hlk UErr.notSupported hsy
      (by rcases hev0 with rfl | rfl <;> simp)
      (by rcases hev0 with rfl | rfl <;> simp)).2 (by decide)
    rw [heq]
    have hframe := enableFrom_error_frame fs env { cfg0 with Spec := spec }
      desired fl ev0 hevW _ hmain.1
    exact ⟨hmain.1, hmain.2.1, hframe.2 (by simp), hframe.1⟩
  · intro hsy hact hrel
    have hmain := enableFrom_reload_fail fs env { cfg0 with Spec := spec }
      desired fl ev0 hdz (by simpa using hact) hin hlk hsy UErr.notSupported
      hrel (by decide) (by decide)
    rw [heq]
    have hframe := enableFrom_error_frame fs env { cfg0 with Spec := spec }
      desired fl ev0 hevW _ hmain.1
    exact ⟨hmain.1, hmain.2, hframe.2 (by simp), hframe.1⟩

/-- Witness for the amended C8 at the concrete not-supported Sync. -/
theorem enable_not_supported_is_failure_witness :
    readConfig (FileState.doc cfgW) = Except.ok cfgW ∧
    validateConfigSpec cfgW.Spec ovW = Except.ok specW ∧
    envSyncNotSupW.parseAddrOk = true ∧
    ovW.ForceVersion = "" ∧
    envSyncNotSupW.findResult = Except.ok { agentVersion := "15.1.0" } ∧
    envSyncNotSupW.installResult = Except.ok () ∧
    envSyncNotSupW.linkResult = Except.ok () ∧
    envSyncNotSupW.sync1 = some UErr.notSupported ∧
    ((envSyncNotSupW.sync1 = some UErr.notSupported →
        (enable (FileState.doc cfgW) ovW envSyncNotSupW).result =
          Except.error (EnableErr.syncFailed v151 UErr.notSupported) ∧
        Event.revertCalled ∈ (enable (FileState.doc cfgW) ovW envSyncNotSupW).events ∧
        Event.writeCalled ∉ (enable (FileState.doc cfgW) ovW envSyncNotSupW).events ∧
        (enable (FileState.doc cfgW) ovW envSyncNotSupW).file =
          FileState.doc cfgW) ∧
      (envSyncNotSupW.sync1 = none → cfgW.Status.ActiveVersion ≠ "15.1.0" →
        envSyncNotSupW.reload1 = some UErr.notSupported →
        (enable (FileState.doc cfgW) ovW envSyncNotSupW).result =
          Except.error (EnableErr.reloadFailed v151 UErr.notSupported) ∧
        Event.revertCalled ∈ (enable (FileState.doc cfgW) ovW envSyncNotSupW).events ∧
        Event.writeCalled ∉ (enable (FileState.doc cfgW) ovW envSyncNotSupW).events ∧
        (enable (FileState.doc cfgW) ovW envSyncNotSupW).file =
          FileState.doc cfgW)) :=
  ⟨by decide, by decide, rfl, rfl, rfl, rfl, rfl, rfl,
    enable_not_supported_is_failure (FileState.doc cfgW) ovW envSyncNotSupW cfgW
      specW v151 (by decide) (by decide) rfl
      (Or.inr ⟨rfl, ⟨{ agentVersion := "15.1.0" }, rfl, rfl⟩⟩)
      (by decide) rfl rfl⟩

end AgentUpdate

namespace AgentUpdate

/-- C9: Disable only ever touches the config store: its trace holds at most
a write; an already-disabled document is returned unchanged with no write;
otherwise only the enabled flag is cleared and persisted; and a second
Disable after a successful one is a no-op success. -/
theorem disable_pure_config_write (fs : FileState) (env : Env) :
    (∀ e ∈ (disable fs env).events, e = Event.writeCalled) ∧
    (∀ cfg, readConfig fs = Except.ok cfg → cfg.Spec.Enabled = false →
      disable fs env = ⟨Except.ok (), fs, []⟩) ∧
    (∀ cfg, readConfig fs = Except.ok cfg → cfg.Spec.Enabled = true →
      env.writeOk = true →
      disable fs env = ⟨Except.ok (),
        FileState.doc { cfg with Spec := { cfg.Spec with Enabled := false } },
        [Event.writeCalled]⟩) ∧
    ((disable fs env).result = Except.ok () →
      disable (disable fs env).file env =
        ⟨Except.ok (), (disable fs env).file, []⟩) := by
  refine ⟨?_, ?_, ?_, ?_⟩
  · have key : ∀ o : EnableOutcome, disable fs env = o →
        ∀ e ∈ o.events, e = Event.writeCalled := by
      intro o ho
      simp only [disable] at ho
      repeat' split at ho
      all_goals subst ho
      all_goals simp_all
    exact key _ rfl
  · intro cfg hread hen
    simp [disable, hread, hen]
  · intro cfg hread hen hw
    simp [disable, hread, hen, hw]
  · intro hok
    cases hE : readConfig fs with
    | error a => simp [disable, hE] at hok
    | ok cfg =>
      by_cases hen : cfg.Spec.Enabled = false
      · simp [disable, hE, hen]
      · by_cases hw : env.writeOk = true
        · obtain ⟨hk, hv⟩ := readConfig_ok_tags hE
          have hd1 : disable fs env = ⟨Except.ok (),
              FileState.doc { cfg with Spec := { cfg.Spec with Enabled := false } },
              [Event.writeCalled]⟩ := by
            simp [disable, hE, hen, hw]
          rw [hd1]
          simp [disable, readConfig, hk, hv]
        · simp [disable, hE, hen, hw] at hok

/-- Enabled variant of the sample document, used by the Disable witness. -/
def cfgEnW : UpdateConfig := { cfgW with Spec := { specW with Enabled := true } }

/-- Witness for C9 at a concrete enabled document. -/
theorem disable_pure_config_write_witness :
    readConfig (FileState.doc cfgEnW) = Except.ok cfgEnW ∧
    cfgEnW.Spec.Enabled = true ∧ envW.writeOk = true ∧
    ((∀ e ∈ (disable (FileState.doc cfgEnW) envW).events,
        e = Event.writeCalled) ∧
      (∀ cfg, readConfig (FileState.doc cfgEnW) = Except.ok cfg →
        cfg.Spec.Enabled = false →
        disable (FileState.doc cfgEnW) envW =
          ⟨Except.ok (), FileState.doc cfgEnW, []⟩) ∧
      (∀ cfg, readConfig (FileState.doc cfgEnW) = Except.ok cfg →
        cfg.Spec.Enabled = true → envW.writeOk = true →
        disable (FileState.doc cfgEnW) envW = ⟨Except.ok (),
          FileState.doc { cfg with Spec := { cfg.Spec with Enabled := false } },
          [Event.writeCalled]⟩) ∧
      ((disable (FileState.doc cfgEnW) envW).result = Except.ok () →
        disable (disable (FileState.doc cfgEnW) envW).file envW =
          ⟨Except.ok (), (disable (FileState.doc cfgEnW) envW).file, []⟩)) :=
  ⟨by decide, by decide, rfl, disable_pure_config_write (FileState.doc cfgEnW) envW⟩

end AgentUpdate

namespace AgentUpdate

/-- A successful finishEnable pins the listing and write results and yields
the enabled document. -/
theorem finishEnable_ok_spec (f : FileState) (env : Env) (cfg : UpdateConfig)
    (ev : List Event) (h : (finishEnable f env cfg ev).result = Except.ok ()) :
    (∃ vs, env.listResult = Except.ok vs) ∧ env.writeOk = true ∧
    (finishEnable f env cfg ev).file =
      FileState.doc { cfg with Spec := { cfg.Spec with Enabled := true } } := by
  have key : ∀ o : EnableOutcome, finishEnable f env cfg ev = o →
      o.result = Except.ok () →
      (∃ vs, env.listResult = Except.ok vs) ∧ env.writeOk = true ∧
      o.file = FileState.doc { cfg with Spec := { cfg.Spec with Enabled := true } } := by
    intro o ho
    simp only [finishEnable] at ho
    repeat' split at ho
    all_goals subst ho
    all_goals intro hok
    all_goals simp_all
  exact key _ rfl h

set_option maxHeartbeats 2000000 in
/-- A successful enableFrom pins every collaborator outcome it depends on
and yields the enabled document with the shifted (or preserved) status. -/
theorem enableFrom_ok_spec (f : FileState) (env : Env) (cfg : UpdateConfig)
    (d : String) (fl : Nat) (ev : List Event)
    (h : (enableFrom f env cfg d fl ev).result = Except.ok ()) :
    d ≠ "" ∧ env.installResult = Except.ok () ∧ env.linkResult = Except.ok () ∧
    env.sync1 = none ∧ (∃ vs, env.listResult = Except.ok vs) ∧
    env.writeOk = true ∧
    (enableFrom f env cfg d fl ev).file = FileState.doc { cfg with
      Spec := { cfg.Spec with Enabled := true },
      Status := ⟨d, if cfg.Status.ActiveVersion = d then cfg.Status.BackupVersion
        else cfg.Status.ActiveVersion⟩ } := by
  have key : ∀ o : EnableOutcome, enableFrom f env cfg d fl ev = o →
      o.result = Except.ok () →
      d ≠ "" ∧ env.installResult = Except.ok () ∧ env.linkResult = Except.ok () ∧
      env.sync1 = none ∧ (∃ vs, env.listResult = Except.ok vs) ∧
      env.writeOk = true ∧
      o.file = FileState.doc { cfg with
        Spec := { cfg.Spec with Enabled := true },
        Status := ⟨d, if cfg.Status.ActiveVersion = d then cfg.Status.BackupVersion
          else cfg.Status.ActiveVersion⟩ } := by
    intro o ho
    simp only [enableFrom] at ho
    repeat' split at ho
    all_goals subst ho
    all_goals intro hok
    all_goals
      first
      | (obtain ⟨⟨vs, hls⟩, hw, hfile⟩ := finishEnable_ok_spec _ _ _ _ hok
         refine ⟨by simp_all, by simp_all, by simp_all, by simp_all,
           ⟨vs, hls⟩, hw, ?_⟩
         rw [hfile]
         obtain ⟨cV, cK, cS, ⟨cav, cbv⟩⟩ := cfg
         simp_all)
      | simp_all
  exact key _ rfl h

end AgentUpdate

namespace AgentUpdate

/-- Re-validating an already merged and validated spec (with any enabled
flag) is a no-op: validateConfigSpec is idempotent on its own output. -/
theorem validateConfigSpec_ok_again {s s' : UpdateSpec} {ov : OverrideConfig}
    (h : validateConfigSpec s ov = Except.ok s') (b : Bool) :
    validateConfigSpec { s' with Enabled := b } ov =
      Except.ok { s' with Enabled := b } := by
  obtain ⟨p, g, t, en⟩ := s
  obtain ⟨vp, vg, vt, vf⟩ := ov
  obtain ⟨p', g', t', e'⟩ := s'
  by_cases hp : vp = "" <;> by_cases hg : vg = "" <;> by_cases ht : vt = "" <;>
    (simp [validateConfigSpec, hp, hg, ht] at h ⊢
     repeat' split at h
     all_goals simp_all)

end AgentUpdate

namespace AgentUpdate

/-- A successful Enable pins the outcome of every step and persists the
merged spec (enabled) with the resolved version active and the previous
active version as backup when it changed. -/
theorem enable_ok_spec (fs : FileState) (ov : OverrideConfig) (env : Env)
    (h : (enable fs ov env).result = Except.ok ()) :
    ∃ cfg0 spec desired,
      readConfig fs = Except.ok cfg0 ∧
      validateConfigSpec cfg0.Spec ov = Except.ok spec ∧
      env.parseAddrOk = true ∧
      ((ov.ForceVersion = desired ∧ desired ≠ "") ∨
        (ov.ForceVersion = "" ∧
          ∃ resp, env.findResult = Except.ok resp ∧ resp.agentVersion = desired)) ∧
      desired ≠ "" ∧ env.installResult = Except.ok () ∧
      env.linkResult = Except.ok () ∧ env.sync1 = none ∧
      (∃ vs, env.listResult = Except.ok vs) ∧ env.writeOk = true ∧
      (enable fs ov env).file = FileState.doc
        { Version := cfg0.Version,
          Kind := cfg0.Kind, Spec := { spec with Enabled := true },
          Status := ⟨desired,
            if cfg0.Status.ActiveVersion = desired then cfg0.Status.BackupVersion
            else cfg0.Status.ActiveVersion⟩ } := by
  cases hE : readConfig fs with
  | error a => simp [enable, hE] at h
  | ok cfg0 =>
    cases hV : validateConfigSpec cfg0.Spec ov with
    | error a => simp [enable, hE, hV] at h
    | ok spec =>
      by_cases hpa : env.parseAddrOk = true
      · by_cases hf : ov.ForceVersion = ""
        · cases hF : env.findResult with
          | error a => simp [enable, hE, hV, hpa, hf, hF] at h
          | ok resp =>
            have heq : enable fs ov env = enableFrom fs env
                { cfg0 with Spec := spec } resp.agentVersion
                ((if resp.edition = "ent" then FlagEnterprise else 0) +
                  (if resp.fips then FlagFIPS else 0)) [Event.findCalled] := by
              simp [enable, hE, hV, hpa, hf, hF]
            rw [heq] at h
            obtain ⟨hdz, hin, hlk, hsy, hls, hwr, hfile⟩ :=
              enableFrom_ok_spec _ _ _ _ _ _ h
            refine ⟨cfg0, spec, resp.agentVersion, rfl, hV, hpa,
              Or.inr ⟨hf, resp, rfl, rfl⟩, hdz, hin, hlk, hsy, hls, hwr, ?_⟩
            rw [heq, hfile]
        · have heq : enable fs ov env = enableFrom fs env
              { cfg0 with Spec := spec } ov.ForceVersion 0 [] := by
            simp [enable, hE, hV, hpa, hf]
          rw [heq] at h
          obtain ⟨hdz, hin, hlk, hsy, hls, hwr, hfile⟩ :=
            enableFrom_ok_spec _ _ _ _ _ _ h
          refine ⟨cfg0, spec, ov.ForceVersion, rfl, hV, hpa,
            Or.inl ⟨rfl, hdz⟩, hdz, hin, hlk, hsy, hls, hwr, ?_⟩
          rw [heq, hfile]
      · have hpa2 : env.parseAddrOk = false := by simpa using hpa
        simp [enable, hE, hV, hpa2] at h

end AgentUpdate

namespace AgentUpdate

/-- C6: after a successful Enable, running Enable again with the same
override and the same collaborator behaviour succeeds and persists the
identical document (the second run takes the re-validation path). -/
theorem enable_idempotent (fs : FileState) (ov : OverrideConfig) (env : Env)
    (h : (enable fs ov env).result = Except.ok ()) :
    (enable (enable fs ov env).file ov env).result = Except.ok () ∧
    (enable (enable fs ov env).file ov env).file = (enable fs ov env).file := by
  obtain ⟨cfg0, spec, desired, hread, hval, hpa, hres, hdz, hin, hlk, hsy,
    ⟨vs, hls⟩, hwr, hfile⟩ := enable_ok_spec fs ov env h
  obtain ⟨hk, hv⟩ := readConfig_ok_tags hread
  set B := (if cfg0.Status.ActiveVersion = desired then cfg0.Status.BackupVersion
    else cfg0.Status.ActiveVersion) with hB
  set cfg1 : UpdateConfig :=
    { Version := cfg0.Version, Kind := cfg0.Kind,
      Spec := { spec with Enabled := true },
      Status := ⟨desired, B⟩ } with hcfg1
  have hread2 : readConfig (enable fs ov env).file = Except.ok cfg1 := by
    rw [hfile]
    simp [readConfig, hcfg1, hk, hv]
  have hval2 : validateConfigSpec cfg1.Spec ov =
      Except.ok { spec with Enabled := true } :=
    validateConfigSpec_ok_again hval true
  obtain ⟨fl, ev0, hev0, heq2⟩ := enable_eq_enableFrom (enable fs ov env).file
    ov env cfg1 { spec with Enabled := true } desired hread2 hval2 hpa hres
  rw [heq2]
  have hact : ({ cfg1 with Spec := { spec with Enabled := true } } :
      UpdateConfig).Status.ActiveVersion = desired := by
    simp [hcfg1]
  have hrun := enableFrom_run_noshift (enable fs ov env).file env
    { cfg1 with Spec := { spec with Enabled := true } } desired fl ev0 hdz hact
    hin hlk hsy vs hls hwr
  rw [hrun]
  constructor
  · rfl
  · rw [hfile]

end AgentUpdate

namespace AgentUpdate

/-- Witness for C6: the upgrade scenario run twice persists the same
document. -/
theorem enable_idempotent_witness :
    (enable (FileState.doc cfgW) ovW envW).result = Except.ok () ∧
    ((enable (enable (FileState.doc cfgW) ovW envW).file ovW envW).result =
        Except.ok () ∧
      (enable (enable (FileState.doc cfgW) ovW envW).file ovW envW).file =
        (enable (FileState.doc cfgW) ovW envW).file) :=
  ⟨by decide, enable_idempotent (FileState.doc cfgW) ovW envW (by decide)⟩

end AgentUpdate
